import Mathlib

/-!
A shallow embedding of the forensic-artifact extraction engine of
`src/mcp_server.py` (the `extract_from_image` tool and its helper closures
`find_consolehost_files`, `extract_file_content`, `get_username_from_path`,
together with the encoding-fallback decode loop and the command-line parsing
loop).

Modelling conventions:
  * Python strings are Lean `String`s; Python byte strings are `List Nat`
    (one entry per byte).
  * Python `str.lower` is modelled on the ASCII range (all constants in the
    source are ASCII); characters outside `A`-`Z` are unchanged.
  * The pytsk3/pyewf collaborators are external to the repository: the
    filesystem seen by the walk is modelled as a tree of directory entries,
    where the tree records, for each node, the answers the library would give
    (name, metadata kind, whether `open_dir` on its path raises, and what
    `read_random(0, size)` returns for a file, `none` meaning the read
    raises).  The volume probe is modelled by its outcome (`none` = the
    `pytsk3.Volume_Info` call raised, `some ps` = it returned the partition
    list `ps`), and `FS_Info` outcomes by `Option`/`Except` values.
  * The four non-total codecs in the encoding list (`utf-8`, `utf-8-sig`,
    `cp949`, `euc-kr`) are Python stdlib codecs, not code of this repository;
    they are universally quantified decode functions.  `latin-1` is modelled
    concretely because its totality (every byte decodes) is load-bearing.
  * Filesystem writes performed by the extraction loop are modelled
    explicitly as a list of `(output path, bytes)` pairs carried in the run
    result; `Path(output_dir) / filename` is modelled as string
    concatenation with `/`.
-/

namespace McpServer

/-- Models Python `str.lower` for the ASCII range (all constants compared
against in the source are ASCII); other characters are unchanged. -/
def pyLower (s : String) : String :=
  ⟨s.data.map Char.toLower⟩

/-- Models the Python substring test `pat in s` (contiguous substring). -/
def strContains (s pat : String) : Bool :=
  s.data.tails.any (fun t => pat.data.isPrefixOf t)

/-- Models Python `str.split(sep)` for a single-character separator, as used
by `get_username_from_path` (`file_path.split('/')`): no collapsing of
adjacent separators, and the empty string splits to `[""]`. -/
def pySplitAux (sep : Char) : List Char → List Char → List String
  | [], acc => [⟨acc.reverse⟩]
  | c :: rest, acc =>
      if c = sep then String.mk acc.reverse :: pySplitAux sep rest []
      else pySplitAux sep rest (c :: acc)

def pySplit (s : String) (sep : Char) : List String :=
  pySplitAux sep s.data []

/-- The characters Python `str.strip()` removes: those with `str.isspace()`
true (ASCII whitespace, the C0 separators `0x1c`-`0x1f`, NEL, NBSP, and the
Unicode space separators). -/
def isPySpace (c : Char) : Bool :=
  (9 ≤ c.toNat && c.toNat ≤ 13) || (28 ≤ c.toNat && c.toNat ≤ 31) ||
  c.toNat == 32 || c.toNat == 133 || c.toNat == 160 || c.toNat == 5760 ||
  (8192 ≤ c.toNat && c.toNat ≤ 8202) || c.toNat == 8232 || c.toNat == 8233 ||
  c.toNat == 8239 || c.toNat == 8287 || c.toNat == 12288

/-- Models Python `str.strip()` (no arguments): drop whitespace characters
from both ends. -/
def pyStrip (s : String) : String :=
  ⟨((s.data.dropWhile isPySpace).reverse.dropWhile isPySpace).reverse⟩

/-- The line boundaries recognised by Python `str.splitlines()`, other than
the two-character sequence CR LF which is handled separately. -/
def isLineBreakChar (c : Char) : Bool :=
  c.toNat == 10 || c.toNat == 11 || c.toNat == 12 || c.toNat == 13 ||
  c.toNat == 28 || c.toNat == 29 || c.toNat == 30 || c.toNat == 133 ||
  c.toNat == 8232 || c.toNat == 8233

/-- Models Python `str.splitlines()`: split at every line boundary (with
CR LF counting as a single boundary), keep no terminators, and produce no
trailing empty line for a terminated final line. -/
def pySplitLinesAux : List Char → List Char → List String
  | [], acc => if acc.isEmpty then [] else [⟨acc.reverse⟩]
  | '\r' :: '\n' :: rest, acc => String.mk acc.reverse :: pySplitLinesAux rest []
  | c :: rest, acc =>
      if isLineBreakChar c then String.mk acc.reverse :: pySplitLinesAux rest []
      else pySplitLinesAux rest (c :: acc)

def pySplitLines (s : String) : List String :=
  pySplitLinesAux s.data []

/-- The command-building loop of `extract_from_image`
(src/mcp_server.py lines 322-329): enumerate the lines of the decoded text
starting at 1; a line whose stripped form is non-empty contributes one
`{line_number, command}` record; other lines contribute nothing but still
advance the line number. -/
def parseCommandsAux : Nat → List String → List (Nat × String)
  | _, [] => []
  | n, l :: ls =>
      (if pyStrip l = "" then [] else [(n, pyStrip l)]) ++
        parseCommandsAux (n + 1) ls

def parseCommands (text : String) : List (Nat × String) :=
  parseCommandsAux 1 (pySplitLines text)

/-- Latin-1 text for a byte sequence: each byte becomes the code point of the
same value.  (Bytes are < 256; the `% 256` keeps `Char.ofNat` applied to a
valid scalar value for arbitrary `Nat` inputs.) -/
def latin1Text (bs : List Nat) : String :=
  ⟨bs.map (fun b => Char.ofNat (b % 256))⟩

/-- The `latin-1` codec: total, never raises. -/
def latin1Decode (bs : List Nat) : Option String :=
  some (latin1Text bs)

/-- The decode loop of `extract_from_image` (src/mcp_server.py lines
310-319): try each `(encoding name, codec)` in order, and stop at the first
codec that does not raise, reporting the decoded text and the encoding
name. -/
def decodeChain : List (String × (List Nat → Option String)) → List Nat →
    Option (String × String)
  | [], _ => none
  | (nm, dec) :: rest, bs =>
      match dec bs with
      | some t => some (t, nm)
      | none => decodeChain rest bs

/-- The source's candidate encoding list
`['utf-8', 'utf-8-sig', 'cp949', 'euc-kr', 'latin-1']`.  The first four
codecs are Python stdlib codecs external to this repository and are taken as
arbitrary decode functions; `latin-1` is the concrete total codec. -/
def sourceEncodings (u s c e : List Nat → Option String) :
    List (String × (List Nat → Option String)) :=
  [("utf-8", u), ("utf-8-sig", s), ("cp949", c), ("euc-kr", e),
   ("latin-1", latin1Decode)]

/-- The scanning loop of `get_username_from_path`
(src/mcp_server.py lines 238-242): return the segment following the first
segment that lower-cases to `"users"` and has a following segment; return
`"unknown"` if the scan finds none. -/
def usernameFromParts : List String → String
  | [] => "unknown"
  | [_] => "unknown"
  | x :: y :: rest =>
      if pyLower x == "users" then y else usernameFromParts (y :: rest)

/-- `get_username_from_path` (src/mcp_server.py lines 237-242). -/
def get_username_from_path (p : String) : String :=
  usernameFromParts (pySplit p '/')

/-- `target_filename` (src/mcp_server.py line 187). -/
def targetFilename : String := "consolehost_history.txt"

/-- `target_path_parts` (src/mcp_server.py line 188). -/
def targetPathParts : List String :=
  ["appdata", "roaming", "microsoft", "windows", "powershell", "psreadline"]

/-- `full_path = f"{path}/{name}" if path != "/" else f"/{name}"`
(src/mcp_server.py line 204). -/
def fullPath (path name : String) : String :=
  if path = "/" then "/" ++ name else path ++ "/" ++ name

/-- The `name in ['.', '..']` skip (src/mcp_server.py line 201). -/
def isDotEntry (n : String) : Bool :=
  n == "." || n == ".."

/-- The regular-file match condition (src/mcp_server.py lines 207-209):
lower-cased name equals the target filename and every required path
component occurs as a substring of the lower-cased full path. -/
def fileMatch (name full : String) : Bool :=
  pyLower name == targetFilename &&
    targetPathParts.all (fun q => strContains (pyLower full) q)

/-- The directory pruning condition (src/mcp_server.py lines 217-223): the
walk descends into a directory when its lower-cased name is a top-level
anchor, or its lower-cased name is one of the required path components, or
the accumulated full path contains `"appdata"`, or the current directory
path is exactly a top-level anchor. -/
def dirPrune (path name full : String) : Bool :=
  pyLower name == "users" || pyLower name == "documents and settings" ||
  targetPathParts.contains (pyLower name) ||
  strContains (pyLower full) "appdata" ||
  pyLower path == "/users" || pyLower path == "/documents and settings"

mutual
/-- A directory entry as the walk in `find_consolehost_files` sees it.
`file` carries the size `entry.info.meta.size` reports and what a later
`entry.read_random(0, size)` in `extract_file_content` returns (`none`
models the read raising).  `dir`'s `openable = false` models
`fs.open_dir` raising on that directory's path (corrupt metadata), which
makes the walk skip the subtree.  `other` covers entries whose `info.meta`
is absent or neither regular file nor directory, and entries that raise
while being examined (the per-entry `except Exception: continue`). -/
inductive Entry where
  | file (name : String) (size : Nat) (content : Option (List Nat)) : Entry
  | dir (name : String) (openable : Bool) (children : EntryList) : Entry
  | other (name : String) : Entry

inductive EntryList where
  | nil : EntryList
  | cons (e : Entry) (es : EntryList) : EntryList
end

def entryListOf : List Entry → EntryList
  | [] => .nil
  | e :: es => .cons e (entryListOf es)

/-- One element of the `results` list built by `find_consolehost_files`
(src/mcp_server.py lines 210-214): the full path, the reported size, and
(for the later extraction pass) the entry's read outcome. -/
structure MatchRec where
  path : String
  size : Nat
  content : Option (List Nat)
  deriving DecidableEq

mutual
/-- The per-entry step of the loop of `find_consolehost_files`
(src/mcp_server.py lines 195-225), returning the matches the entry
contributes.  A regular file contributes a match when the match condition
holds; a directory contributes its subtree's matches when the pruning
condition admits it and `open_dir` on it succeeds. -/
def findE (path : String) : Entry → List MatchRec
  | .file n sz c =>
      if isDotEntry n then []
      else if fileMatch n (fullPath path n) then [⟨fullPath path n, sz, c⟩]
      else []
  | .dir n op ch =>
      if isDotEntry n then []
      else if dirPrune path n (fullPath path n) then
        (if op then findL (fullPath path n) ch else [])
      else []
  | .other _ => []

/-- The loop of `find_consolehost_files` over one directory listing,
accumulating matches in entry order. -/
def findL (path : String) : EntryList → List MatchRec
  | .nil => []
  | .cons e es => findE path e ++ findL path es
end

mutual
/-- Instrumentation of the same walk: the directory paths on which the walk
attempts `fs.open_dir` by recursing (src/mcp_server.py lines 221, 223).  A
directory's own path is recorded exactly when the pruning condition admits
it; its children's paths follow only when its `open_dir` succeeded. -/
def openedE (path : String) : Entry → List String
  | .file _ _ _ => []
  | .dir n op ch =>
      if isDotEntry n then []
      else if dirPrune path n (fullPath path n) then
        fullPath path n :: (if op then openedL (fullPath path n) ch else [])
      else []
  | .other _ => []

def openedL (path : String) : EntryList → List String
  | .nil => []
  | .cons e es => openedE path e ++ openedL path es
end

/-- A filesystem handle as `find_consolehost_files` consumes it.
`root = none` models `fs.open_dir("/")` raising, in which case the walk
returns no matches (src/mcp_server.py lines 190-193). -/
structure FS where
  root : Option EntryList

/-- `find_consolehost_files(fs)` started at `"/"`. -/
def findFS (fs : FS) : List MatchRec :=
  match fs.root with
  | none => []
  | some es => findL "/" es

/-- One entry of `list(pytsk3.Volume_Info(img))`
(src/mcp_server.py lines 253-254, 264-277): the allocation flag, the decoded
description, and the outcome of `pytsk3.FS_Info(img, offset=...)` at the
partition's offset (`none` models `FS_Info` raising for this partition,
which the loop skips with `except Exception: continue`). -/
structure Partition where
  alloc : Bool
  desc : String
  fsResult : Option FS

/-- A match after the orchestrator tags it (src/mcp_server.py lines
280-283): in the partition branch each result dict gains `partition` and
`partition_num` keys; in the whole-image branch it has neither, and the
artifact later reads `result.get('partition', 'N/A')`. -/
structure TaggedMatch where
  m : MatchRec
  partitionDesc : Option String
  partitionNum : Option Nat
  deriving DecidableEq

/-- The partition loop of `extract_from_image` (src/mcp_server.py lines
264-286): walk the partitions in order with their positional index, skip
unallocated ones, skip ones an index filter excludes, skip ones whose
`FS_Info` raises, and tag each partition's matches with its description and
index. -/
def partLoop (filt : Option Nat) : Nat → List Partition → List TaggedMatch
  | _, [] => []
  | i, p :: ps =>
      (if p.alloc && (match filt with | some k => i == k | none => true) then
         match p.fsResult with
         | some fs => (findFS fs).map (fun m => ⟨m, some p.desc, some i⟩)
         | none => []
       else []) ++ partLoop filt (i + 1) ps

/-- One element of `extracted_files` (src/mcp_server.py lines 331-340). -/
structure Artifact where
  username : String
  source_path : String
  output_path : String
  file_size : Nat
  partition : String
  encoding : Option String
  command_count : Nat
  commands : List (Nat × String)
  deriving DecidableEq

/-- The value `extract_from_image` returns: a structured failure
(`success = False` with an error message) or a success carrying
`files_found`, `files_extracted` and `extracted_files`.  `writes` records
the side effect of the extraction loop: each `(output path, raw bytes)`
pair written with `open(output_path, 'wb')` (src/mcp_server.py lines
306-307). -/
inductive RunResult where
  | failure (error : String) : RunResult
  | ok (files_found : Nat) (files_extracted : Nat)
      (extracted_files : List Artifact)
      (writes : List (String × List Nat)) : RunResult
  deriving DecidableEq

/-- The inputs `extract_from_image` consumes after the image container has
been opened: the outcome of the volume probe (`none` = `Volume_Info`
raised), the outcome of `FS_Info(img)` on the whole image (used only when
there is no partition list), the optional partition index filter, the
output directory, and the four stdlib codecs of the encoding list. -/
structure OrchInput where
  volumeResult : Option (List Partition)
  wholeFs : Except String FS
  partitionFilter : Option Nat
  outputDir : String
  utf8 : List Nat → Option String
  utf8sig : List Nat → Option String
  cp949 : List Nat → Option String
  euckr : List Nat → Option String

/-- `output_dir / f"ConsoleHost_history_{username}_{i+1}.txt"`
(src/mcp_server.py lines 300-301), with path joining modelled as string
concatenation. -/
def mkOutputPath (outputDir username : String) (seq : Nat) : String :=
  outputDir ++ "/ConsoleHost_history_" ++ username ++ "_" ++ toString seq ++
    ".txt"

/-- The extraction loop `for i, result in enumerate(all_results)`
(src/mcp_server.py lines 298-340), returning the `extracted_files` list and
the file writes it performs.  The content gate is the truthiness test
`if content_bytes:`: both a failed read (`none`) and an empty byte string
fail it, so neither produces a write or an artifact.  The `none` arm of the
decode match is unreachable for the source encoding list because `latin-1`
is total and last. -/
def extractLoop (inp : OrchInput) :
    Nat → List TaggedMatch → List Artifact × List (String × List Nat)
  | _, [] => ([], [])
  | i, r :: rs =>
      let username := get_username_from_path r.m.path
      let opath := mkOutputPath inp.outputDir username (i + 1)
      let rest := extractLoop inp (i + 1) rs
      match r.m.content with
      | none => rest
      | some bs =>
          if bs = [] then rest
          else
            match decodeChain
                (sourceEncodings inp.utf8 inp.utf8sig inp.cp949 inp.euckr)
                bs with
            | none => rest
            | some (text, enc) =>
                let cmds := if text = "" then [] else parseCommands text
                (⟨username, r.m.path, opath, r.m.size,
                    r.partitionDesc.getD "N/A", some enc, cmds.length,
                    cmds⟩ :: rest.1,
                  (opath, bs) :: rest.2)

/-- The `all_results` list the orchestrator accumulates before the
extraction loop (src/mcp_server.py lines 258-296): the tagged matches of
the partition loop when the probe returned a non-empty partition list
(`if partitions:` is Python truthiness, so `None` and `[]` both fall
through), otherwise the untagged matches of the whole-image filesystem. -/
def allResultsOf (inp : OrchInput) : List TaggedMatch :=
  match inp.volumeResult with
  | some (p :: ps) => partLoop inp.partitionFilter 0 (p :: ps)
  | _ =>
      match inp.wholeFs with
      | .ok fs => (findFS fs).map (fun m => ⟨m, none, none⟩)
      | .error _ => []

/-- `extract_from_image` from the volume probe onward (src/mcp_server.py
lines 252-349).  In the whole-image branch a failure of `FS_Info` is fatal
and yields the structured failure result; in the partition branch no
filesystem failure is fatal.  The success result carries
`files_found = len(all_results)` and
`files_extracted = len(extracted_files)`. -/
def extractFromImage (inp : OrchInput) : RunResult :=
  match inp.volumeResult with
  | some (p :: ps) =>
      let all := partLoop inp.partitionFilter 0 (p :: ps)
      let aw := extractLoop inp 0 all
      .ok all.length aw.1.length aw.1 aw.2
  | _ =>
      match inp.wholeFs with
      | .error e => .failure ("Could not process filesystem: " ++ e)
      | .ok fs =>
          let all := (findFS fs).map (fun m => ⟨m, none, none⟩)
          let aw := extractLoop inp 0 all
          .ok all.length aw.1.length aw.1 aw.2

/-! ### Concrete fixtures -/

/-- A codec that rejects every input, standing in for a stdlib codec that
raises on the bytes at hand. -/
def rejectAll : List Nat → Option String := fun _ => none

/-- The byte content `"Get-Process\n\nGet-Service"` of the end-to-end
scenario. -/
def bobBytes : List Nat :=
  "Get-Process\n\nGet-Service".data.map Char.toNat

/-- A user tree holding `bob`'s history file at the canonical PSReadLine
location. -/
def bobTree : Entry :=
  .dir "Users" true (entryListOf [
    .dir "bob" true (entryListOf [
      .dir "AppData" true (entryListOf [
        .dir "Roaming" true (entryListOf [
          .dir "Microsoft" true (entryListOf [
            .dir "Windows" true (entryListOf [
              .dir "PowerShell" true (entryListOf [
                .dir "PSReadLine" true (entryListOf [
                  .file "ConsoleHost_history.txt" 24 (some bobBytes)])])])])])])])])

/-- Whole-image run over `bob`'s tree; the non-total codecs reject, so
decoding falls through to `latin-1`. -/
def bobInput : OrchInput :=
  { volumeResult := none
    wholeFs := .ok ⟨some (entryListOf [bobTree])⟩
    partitionFilter := none
    outputDir := "out"
    utf8 := rejectAll
    utf8sig := rejectAll
    cp949 := rejectAll
    euckr := rejectAll }

def bobPath : String :=
  "/Users/bob/AppData/Roaming/Microsoft/Windows/PowerShell/PSReadLine/ConsoleHost_history.txt"

def bobArtifact : Artifact :=
  { username := "bob"
    source_path := bobPath
    output_path := "out/ConsoleHost_history_bob_1.txt"
    file_size := 24
    partition := "N/A"
    encoding := some "latin-1"
    command_count := 2
    commands := [(1, "Get-Process"), (3, "Get-Service")] }

/-- A user tree with two matching history files for `alice`, the first
unreadable (its `read_random` raises) and the second readable. -/
def aliceTree : Entry :=
  .dir "Users" true (entryListOf [
    .dir "alice" true (entryListOf [
      .dir "AppData" true (entryListOf [
        .dir "Roaming" true (entryListOf [
          .dir "Microsoft" true (entryListOf [
            .dir "Windows" true (entryListOf [
              .dir "PowerShell" true (entryListOf [
                .dir "PSReadLine" true (entryListOf [
                  .file "ConsoleHost_history.txt" 5 none,
                  .file "consolehost_history.txt" 1 (some [65])])])])])])])])])

def aliceInput : OrchInput :=
  { volumeResult := none
    wholeFs := .ok ⟨some (entryListOf [aliceTree])⟩
    partitionFilter := none
    outputDir := "out"
    utf8 := rejectAll
    utf8sig := rejectAll
    cp949 := rejectAll
    euckr := rejectAll }

def alicePathA : String :=
  "/Users/alice/AppData/Roaming/Microsoft/Windows/PowerShell/PSReadLine/ConsoleHost_history.txt"

def alicePathB : String :=
  "/Users/alice/AppData/Roaming/Microsoft/Windows/PowerShell/PSReadLine/consolehost_history.txt"

def aliceArtifact : Artifact :=
  { username := "alice"
    source_path := alicePathB
    output_path := "out/ConsoleHost_history_alice_2.txt"
    file_size := 1
    partition := "N/A"
    encoding := some "latin-1"
    command_count := 1
    commands := [(1, "A")] }

/-- An unrelated top-level directory also holding a file named
`consolehost_history.txt`. -/
def junkTree : Entry :=
  .dir "stuff" true (entryListOf [
    .file "ConsoleHost_history.txt" 2 (some [72, 105])])

/-- A whole-image run over a tree whose single matching file reads back as a
zero-byte string. -/
def emptyFileInput : OrchInput :=
  { volumeResult := none
    wholeFs := .ok ⟨some (entryListOf [
      .dir "Users" true (entryListOf [
        .dir "carol" true (entryListOf [
          .dir "AppData" true (entryListOf [
            .dir "Roaming" true (entryListOf [
              .dir "Microsoft" true (entryListOf [
                .dir "Windows" true (entryListOf [
                  .dir "PowerShell" true (entryListOf [
                    .dir "PSReadLine" true (entryListOf [
                      .file "ConsoleHost_history.txt" 0 (some [])])])])])])])])])])⟩
    partitionFilter := none
    outputDir := "out"
    utf8 := rejectAll
    utf8sig := rejectAll
    cp949 := rejectAll
    euckr := rejectAll }

/-! ### Helper lemmas -/

/-- The decode loop on the source encoding list equals the explicit priority
choice: the first codec that succeeds wins, and since `latin-1` accepts
every byte sequence the result is always present. -/
theorem decodeChain_src (u s c e : List Nat → Option String) (bs : List Nat) :
    decodeChain (sourceEncodings u s c e) bs =
      some (match u bs with
            | some t => (t, "utf-8")
            | none =>
              match s bs with
              | some t => (t, "utf-8-sig")
              | none =>
                match c bs with
                | some t => (t, "cp949")
                | none =>
                  match e bs with
                  | some t => (t, "euc-kr")
                  | none => (latin1Text bs, "latin-1")) := by
  cases hu : u bs <;> cases hs : s bs <;> cases hc : c bs <;> cases he : e bs <;>
    simp [sourceEncodings, decodeChain, latin1Decode, hu, hs, hc, he]

/-- The walk distributes over concatenated directory listings. -/
theorem findL_append (path : String) (l₁ l₂ : List Entry) :
    findL path (entryListOf (l₁ ++ l₂)) =
      findL path (entryListOf l₁) ++ findL path (entryListOf l₂) := by
  induction l₁ with
  | nil => rfl
  | cons e es ih => simp [entryListOf, findL, ih]

mutual
/-- Every match the walk records satisfies the required path-component
substring rule (soundness of the recorded matches). -/
theorem findE_sound (path : String) (e : Entry) :
    ∀ m ∈ findE path e,
      targetPathParts.all (fun q => strContains (pyLower m.path) q) = true := by
  cases e with
  | file n sz c =>
      intro m hm
      by_cases hd : isDotEntry n
      · simp [findE, hd] at hm
      · by_cases hf : fileMatch n (fullPath path n)
        · simp only [findE, hd, Bool.false_eq_true, if_false, hf, if_true] at hm
          simp only [List.mem_singleton] at hm
          subst hm
          simp only [fileMatch, Bool.and_eq_true] at hf
          exact hf.2
        · simp [findE, hd, hf] at hm
  | dir n op ch =>
      intro m hm
      by_cases hd : isDotEntry n
      · simp [findE, hd] at hm
      · by_cases hp : dirPrune path n (fullPath path n)
        · cases op with
          | true =>
              simp only [findE, hd, Bool.false_eq_true, if_false, hp, if_true] at hm
              exact findL_sound (fullPath path n) ch m hm
          | false => simp [findE, hd, hp] at hm
        · simp [findE, hd, hp] at hm
  | other n => intro m hm; simp [findE] at hm

theorem findL_sound (path : String) (es : EntryList) :
    ∀ m ∈ findL path es,
      targetPathParts.all (fun q => strContains (pyLower m.path) q) = true := by
  cases es with
  | nil => intro m hm; simp [findL] at hm
  | cons e es' =>
      intro m hm
      rcases List.mem_append.mp (by simpa [findL] using hm) with h | h
      · exact findE_sound path e m h
      · exact findL_sound path es' m h
end

/-- A match whose content read raised contributes nothing to the extraction
loop, which continues with the remaining matches at the next index. -/
theorem extractLoop_skip_none (inp : OrchInput) (i : Nat) (p : String)
    (sz : Nat) (pd : Option String) (pn : Option Nat)
    (rs : List TaggedMatch) :
    extractLoop inp i (⟨⟨p, sz, none⟩, pd, pn⟩ :: rs) =
      extractLoop inp (i + 1) rs := rfl

/-- A match whose content read returned the empty byte string contributes
nothing to the extraction loop (the gate `if content_bytes:` is Python
truthiness). -/
theorem extractLoop_skip_empty (inp : OrchInput) (i : Nat) (p : String)
    (sz : Nat) (pd : Option String) (pn : Option Nat)
    (rs : List TaggedMatch) :
    extractLoop inp i (⟨⟨p, sz, some []⟩, pd, pn⟩ :: rs) =
      extractLoop inp (i + 1) rs := rfl

/-- A match with non-empty content writes its raw bytes to the output path
formed with the current (match-)index, then the loop continues. -/
theorem extractLoop_writes_cons_some (inp : OrchInput) (i : Nat) (p : String)
    (sz : Nat) (b : Nat) (bs : List Nat) (pd : Option String)
    (pn : Option Nat) (rs : List TaggedMatch) :
    (extractLoop inp i (⟨⟨p, sz, some (b :: bs)⟩, pd, pn⟩ :: rs)).2 =
      (mkOutputPath inp.outputDir (get_username_from_path p) (i + 1),
        b :: bs) :: (extractLoop inp (i + 1) rs).2 := by
  rcases hdc : decodeChain
      (sourceEncodings inp.utf8 inp.utf8sig inp.cp949 inp.euckr)
      (b :: bs) with _ | ⟨t, enc⟩
  · rw [decodeChain_src] at hdc
    exact absurd hdc (by simp)
  · simp [extractLoop, hdc]

/-- The extraction loop never produces more artifacts than it was given
matches. -/
theorem extractLoop_arts_le (inp : OrchInput) (rs : List TaggedMatch) :
    ∀ i : Nat, (extractLoop inp i rs).1.length ≤ rs.length := by
  induction rs with
  | nil => intro i; simp [extractLoop]
  | cons r rs ih =>
      intro i
      rcases r with ⟨⟨p, sz, c⟩, pd, pn⟩
      cases c with
      | none =>
          rw [extractLoop_skip_none]
          exact (ih (i + 1)).trans (Nat.le_succ _)
      | some bs =>
          cases bs with
          | nil =>
              rw [extractLoop_skip_empty]
              exact (ih (i + 1)).trans (Nat.le_succ _)
          | cons b bs' =>
              rcases hdc : decodeChain
                  (sourceEncodings inp.utf8 inp.utf8sig inp.cp949 inp.euckr)
                  (b :: bs') with _ | ⟨t, enc⟩
              · rw [decodeChain_src] at hdc
                exact absurd hdc (by simp)
              · simp only [extractLoop, hdc, List.length_cons]
                exact Nat.succ_le_succ (ih (i + 1))

/-- Shape of the run result: either a structured failure, or a success whose
fields are the length of `all_results`, and the artifacts and writes of the
extraction loop over `all_results`. -/
theorem extract_shape (inp : OrchInput) :
    (∃ e, extractFromImage inp = .failure e) ∨
      extractFromImage inp =
        .ok (allResultsOf inp).length
          (extractLoop inp 0 (allResultsOf inp)).1.length
          (extractLoop inp 0 (allResultsOf inp)).1
          (extractLoop inp 0 (allResultsOf inp)).2 := by
  rcases hv : inp.volumeResult with _ | ps
  · rcases hw : inp.wholeFs with e | fs
    · exact Or.inl ⟨"Could not process filesystem: " ++ e,
        by simp [extractFromImage, hv, hw]⟩
    · exact Or.inr (by simp [extractFromImage, allResultsOf, hv, hw])
  · cases ps with
    | nil =>
        rcases hw : inp.wholeFs with e | fs
        · exact Or.inl ⟨"Could not process filesystem: " ++ e,
            by simp [extractFromImage, hv, hw]⟩
        · exact Or.inr (by simp [extractFromImage, allResultsOf, hv, hw])
    | cons p ps' =>
        exact Or.inr (by simp [extractFromImage, allResultsOf, hv])

/-- If the `k`-th match (0-based, counting all matches) has non-empty
content, its bytes are written to the output path carrying sequence number
`i + k + 1`, where `i` is the loop's starting index. -/
theorem extractLoop_write_mem (inp : OrchInput) (rs₁ : List TaggedMatch)
    (p : String) (sz : Nat) (b : Nat) (bs : List Nat) (pd : Option String)
    (pn : Option Nat) (rs₂ : List TaggedMatch) :
    ∀ i : Nat,
      (mkOutputPath inp.outputDir (get_username_from_path p)
          (i + rs₁.length + 1), b :: bs) ∈
        (extractLoop inp i (rs₁ ++ ⟨⟨p, sz, some (b :: bs)⟩, pd, pn⟩ :: rs₂)).2 := by
  induction rs₁ with
  | nil =>
      intro i
      rw [List.nil_append, extractLoop_writes_cons_some]
      simp
  | cons r rs ih =>
      intro i
      have harith : i + (r :: rs).length + 1 = (i + 1) + rs.length + 1 := by
        simp only [List.length_cons]
        omega
      rw [harith, List.cons_append]
      rcases r with ⟨⟨p', sz', c'⟩, pd', pn'⟩
      cases c' with
      | none =>
          rw [extractLoop_skip_none]
          exact ih (i + 1)
      | some bs' =>
          cases bs' with
          | nil =>
              rw [extractLoop_skip_empty]
              exact ih (i + 1)
          | cons b' bs'' =>
              rw [extractLoop_writes_cons_some]
              exact List.mem_cons_of_mem _ (ih (i + 1))

/-- Membership characterisation of the command-building loop: starting the
enumeration at `k`, the records are exactly the stripped non-empty lines,
each carrying `k` plus its 0-based position in the line list. -/
theorem parseCommandsAux_mem (ls : List String) :
    ∀ (k n : Nat) (cmd : String),
      (n, cmd) ∈ parseCommandsAux k ls ↔
        (k ≤ n ∧ n - k < ls.length ∧
         pyStrip (ls.getD (n - k) "") = cmd ∧ cmd ≠ "") := by
  induction ls with
  | nil =>
      intro k n cmd
      simp [parseCommandsAux]
  | cons l ls ih =>
      intro k n cmd
      simp only [parseCommandsAux, List.mem_append]
      constructor
      · rintro (h | h)
        · by_cases hl : pyStrip l = ""
          · simp [hl] at h
          · simp only [hl, if_false] at h
            simp only [List.mem_singleton, Prod.mk.injEq] at h
            obtain ⟨rfl, rfl⟩ := h
            exact ⟨Nat.le_refl _, by simp, by simp, hl⟩
        · obtain ⟨h1, h2, h3, h4⟩ := (ih (k + 1) n cmd).mp h
          refine ⟨by omega, by simp only [List.length_cons]; omega, ?_, h4⟩
          obtain ⟨d, hd⟩ : ∃ d, n - k = d + 1 := ⟨n - (k + 1), by omega⟩
          rw [hd, List.getD_cons_succ,
            show d = n - (k + 1) by omega]
          exact h3
      · rintro ⟨h1, h2, h3, h4⟩
        rcases Nat.eq_or_lt_of_le h1 with heq | hlt
        · subst heq
          left
          rw [Nat.sub_self, List.getD_cons_zero] at h3
          rw [if_neg (fun hc => h4 (h3.symm.trans hc))]
          simp [h3]
        · right
          apply (ih (k + 1) n cmd).mpr
          refine ⟨by omega, by simp only [List.length_cons] at h2; omega, ?_, h4⟩
          obtain ⟨d, hd⟩ : ∃ d, n - k = d + 1 := ⟨n - (k + 1), by omega⟩
          rw [hd, List.getD_cons_succ] at h3
          rw [show n - (k + 1) = d by omega]
          exact h3

/-- If the scan of `get_username_from_path` reaches a segment lower-casing
to `"users"` with no earlier such segment, it returns the following segment,
or `"unknown"` when that segment is the last. -/
theorem usernameFromParts_first (x : String) (post : List String) :
    ∀ pre : List String, pyLower x = "users" →
      (∀ y ∈ pre, pyLower y ≠ "users") →
      usernameFromParts (pre ++ x :: post) =
        (match post with
         | [] => "unknown"
         | u :: _ => u) := by
  intro pre
  induction pre with
  | nil =>
      intro hx _
      cases post with
      | nil => rfl
      | cons u post' =>
          simp only [List.nil_append, usernameFromParts]
          rw [if_pos (by simp [hx])]
  | cons y pre' ih =>
      intro hx hpre
      have hy : pyLower y ≠ "users" := hpre y (by simp)
      have hpre' : ∀ z ∈ pre', pyLower z ≠ "users" :=
        fun z hz => hpre z (by simp [hz])
      rcases hq : pre' ++ x :: post with _ | ⟨a, l⟩
      · exact absurd hq (by simp)
      · rw [List.cons_append, hq]
        simp only [usernameFromParts]
        rw [if_neg (by simp [hy])]
        rw [← hq]
        exact ih hx hpre'

/-- If no segment lower-cases to `"users"`, the scan returns `"unknown"`. -/
theorem usernameFromParts_no_users (ps : List String) :
    (∀ y ∈ ps, pyLower y ≠ "users") → usernameFromParts ps = "unknown" := by
  induction ps with
  | nil => intro _; rfl
  | cons x ps ih =>
      intro h
      cases ps with
      | nil => rfl
      | cons y l =>
          simp only [usernameFromParts]
          rw [if_neg (by simp [h x (by simp)])]
          exact ih (fun z hz => h z (by simp [hz]))

/-! ### Claim theorems -/

/-- C1 (counterexample): with two matches of which only the second is
readable, the persisted file for the sole successfully extracted artifact is
named with sequence `2` (its position among all matches found), not `1`
(its position among the successfully extracted files), refuting the claim
as stated. -/
theorem output_sequence_counterexample :
    extractFromImage aliceInput =
      .ok 2 1 [aliceArtifact]
        [("out/ConsoleHost_history_alice_2.txt", [65])] ∧
    ("out/ConsoleHost_history_alice_1.txt", [65]) ∉
      ([("out/ConsoleHost_history_alice_2.txt", [65])] :
        List (String × List Nat)) :=
  ⟨by decide, by decide⟩

/-- C1 (amended): for every match whose content is successfully extracted
(the read returned non-empty bytes), the raw bytes are persisted to
`output_dir/ConsoleHost_history_<username>_<sequence>.txt` where
`<sequence>` is the 1-based position of that match among all matches found
(the enumeration index of `all_results`), not its position among the
successfully extracted files. -/
theorem persisted_sequence_is_match_position :
    ∀ (inp : OrchInput) (rs₁ rs₂ : List TaggedMatch) (p : String) (sz : Nat)
      (b : Nat) (bs : List Nat) (pd : Option String) (pn : Option Nat)
      (ff fe : Nat) (arts : List Artifact) (w : List (String × List Nat)),
      allResultsOf inp = rs₁ ++ ⟨⟨p, sz, some (b :: bs)⟩, pd, pn⟩ :: rs₂ →
      extractFromImage inp = .ok ff fe arts w →
      (mkOutputPath inp.outputDir (get_username_from_path p)
          (rs₁.length + 1), b :: bs) ∈ w := by
  intro inp rs₁ rs₂ p sz b bs pd pn ff fe arts w hall hok
  rcases extract_shape inp with ⟨e, he⟩ | h
  · rw [he] at hok
    exact absurd hok (by simp)
  · rw [h] at hok
    injection hok with h1 h2 h3 h4
    rw [← h4, hall]
    have := extractLoop_write_mem inp rs₁ p sz b bs pd pn rs₂ 0
    simpa using this

/-- C1 witness: the amended statement evaluated on the `alice` fixture. -/
theorem persisted_sequence_is_match_position_witness :
    (mkOutputPath aliceInput.outputDir (get_username_from_path alicePathB)
        (([⟨⟨alicePathA, 5, none⟩, none, none⟩] : List TaggedMatch).length + 1),
      [65]) ∈
      ([("out/ConsoleHost_history_alice_2.txt", [65])] :
        List (String × List Nat)) :=
  persisted_sequence_is_match_position aliceInput
    [⟨⟨alicePathA, 5, none⟩, none, none⟩] [] alicePathB 1 65 [] none none
    2 1 [aliceArtifact] [("out/ConsoleHost_history_alice_2.txt", [65])]
    (by decide) (by decide)

/-- C2: a pair `(n, cmd)` is a command record of the decoded text exactly
when `n` is a 1-based line index of the text, `cmd` is line `n` stripped of
surrounding whitespace, and `cmd` is non-empty — so empty lines produce no
record but advance the numbering.  In particular the three-line file
`"Get-Process" / "" / "Get-Service"` yields exactly
`[{1, Get-Process}, {3, Get-Service}]`, and the end-to-end run over bob's
tree produces one artifact with `command_count = 2` and those commands. -/
theorem command_lines_numbering :
    (∀ (text : String) (n : Nat) (cmd : String),
       (n, cmd) ∈ parseCommands text ↔
         (1 ≤ n ∧ n - 1 < (pySplitLines text).length ∧
          pyStrip ((pySplitLines text).getD (n - 1) "") = cmd ∧ cmd ≠ "")) ∧
    parseCommands "Get-Process\n\nGet-Service" =
      [(1, "Get-Process"), (3, "Get-Service")] ∧
    extractFromImage bobInput =
      .ok 1 1 [bobArtifact]
        [("out/ConsoleHost_history_bob_1.txt", bobBytes)] :=
  ⟨fun text n cmd => parseCommandsAux_mem (pySplitLines text) 1 n cmd,
   by decide, by decide⟩

/-- C3: a regular-file entry is recorded as a match exactly when its
lower-cased name equals `consolehost_history.txt` and every required path
component appears as a substring of its lower-cased full path; moreover
every match the search records satisfies the path-component substring
rule. -/
theorem file_match_condition :
    (∀ (path name : String) (sz : Nat) (c : Option (List Nat)),
       findE path (.file name sz c) =
         if pyLower name == targetFilename &&
             targetPathParts.all
               (fun q => strContains (pyLower (fullPath path name)) q) then
           [⟨fullPath path name, sz, c⟩]
         else []) ∧
    (∀ (path : String) (es : EntryList) (m : MatchRec),
       m ∈ findL path es →
         targetPathParts.all (fun q => strContains (pyLower m.path) q) =
           true) := by
  constructor
  · intro path name sz c
    by_cases hd : isDotEntry name
    · have hne : (pyLower name == targetFilename) = false := by
        rcases (by simpa [isDotEntry] using hd : name = "." ∨ name = "..") with
          rfl | rfl <;> decide
      simp [findE, hd, fileMatch, hne]
    · simp [findE, hd, fileMatch]
  · exact fun path es m hm => findL_sound path es m hm

/-- C3 witness: bob's history file is recorded, and its path satisfies the
substring rule. -/
theorem file_match_condition_witness :
    targetPathParts.all (fun q => strContains (pyLower bobPath) q) = true :=
  file_match_condition.2 "/" (entryListOf [bobTree])
    ⟨bobPath, 24, some bobBytes⟩ (by decide)

/-- C4: the walk never attempts to open (recurse into) a directory whose
pruning condition fails — such a directory contributes no opened paths and
no matches regardless of its contents; any recorded match satisfies every
required path-component substring rule; and concretely a
`consolehost_history.txt` under an unrelated top-level directory is not
found. -/
theorem directory_pruning_invariant :
    (∀ (path name : String) (op : Bool) (ch : EntryList),
       dirPrune path name (fullPath path name) = false →
         openedE path (.dir name op ch) = [] ∧
         findE path (.dir name op ch) = []) ∧
    (∀ (path : String) (es : EntryList) (m : MatchRec),
       m ∈ findL path es →
         targetPathParts.all (fun q => strContains (pyLower m.path) q) =
           true) ∧
    findFS ⟨some (entryListOf [junkTree])⟩ = [] := by
  refine ⟨?_, fun path es m hm => findL_sound path es m hm, by decide⟩
  intro path name op ch hp
  constructor <;> by_cases hd : isDotEntry name <;>
    simp [openedE, findE, hd, hp]

/-- C4 witness: an unrelated top-level directory is neither opened nor
searched. -/
theorem directory_pruning_invariant_witness :
    openedE "/" (.dir "stuff" true (entryListOf [])) = [] ∧
    findE "/" (.dir "stuff" true (entryListOf [])) = [] :=
  directory_pruning_invariant.1 "/" "stuff" true (entryListOf []) (by decide)

/-- C5: whatever the four stdlib codecs do, the decode loop over
`['utf-8', 'utf-8-sig', 'cp949', 'euc-kr', 'latin-1']` returns the text and
name of the first codec that succeeds, and — because `latin-1` is total and
last — it succeeds on every byte input, so the reported encoding is never
absent. -/
theorem decode_chain_order_and_totality :
    ∀ (u s c e : List Nat → Option String) (bs : List Nat),
      decodeChain (sourceEncodings u s c e) bs =
        some (match u bs with
              | some t => (t, "utf-8")
              | none =>
                match s bs with
                | some t => (t, "utf-8-sig")
                | none =>
                  match c bs with
                  | some t => (t, "cp949")
                  | none =>
                    match e bs with
                    | some t => (t, "euc-kr")
                    | none => (latin1Text bs, "latin-1")) :=
  decodeChain_src

/-- C6: the derived username is the segment immediately following the first
segment that case-insensitively equals `users` (with `"unknown"` when no
such segment exists or it is the final segment); in particular `alice` for
the canonical path and `unknown` for a path with no `users` segment. -/
theorem username_derivation :
    (∀ (p : String) (pre : List String) (x : String) (post : List String),
       pySplit p '/' = pre ++ x :: post →
       pyLower x = "users" →
       (∀ y ∈ pre, pyLower y ≠ "users") →
       get_username_from_path p =
         (match post with
          | [] => "unknown"
          | u :: _ => u)) ∧
    (∀ p : String, (∀ y ∈ pySplit p '/', pyLower y ≠ "users") →
       get_username_from_path p = "unknown") ∧
    get_username_from_path
        "/Users/alice/AppData/Roaming/Microsoft/Windows/PowerShell/PSReadLine/ConsoleHost_history.txt" =
      "alice" ∧
    get_username_from_path "/opt/logs/ConsoleHost_history.txt" = "unknown" := by
  refine ⟨?_, ?_, by decide, by decide⟩
  · intro p pre x post hsplit hx hpre
    unfold get_username_from_path
    rw [hsplit]
    exact usernameFromParts_first x post pre hx hpre
  · intro p h
    unfold get_username_from_path
    exact usernameFromParts_no_users _ h

/-- C6 witness: the first-`users`-segment rule evaluated on a concrete
path. -/
theorem username_derivation_witness :
    get_username_from_path "/Users/dave/x" = "dave" :=
  username_derivation.1 "/Users/dave/x" [""] "Users" ["dave", "x"]
    (by decide) (by decide) (by decide)

/-- C7: a failed (or empty) volume probe routes the run to the whole-image
branch, where a filesystem-open failure is fatal and yields the structured
failure result while a success always yields a success result; in the
partition branch (non-empty partition list) the run always returns a
success result, so no per-partition filesystem failure is fatal. -/
theorem volume_probe_fallback :
    (∀ (filt : Option Nat) (od : String)
       (u s c e : List Nat → Option String) (err : String),
       extractFromImage ⟨none, .error err, filt, od, u, s, c, e⟩ =
         .failure ("Could not process filesystem: " ++ err)) ∧
    (∀ (filt : Option Nat) (od : String)
       (u s c e : List Nat → Option String) (fs : FS),
       ∃ ff fe arts w,
         extractFromImage ⟨none, .ok fs, filt, od, u, s, c, e⟩ =
           .ok ff fe arts w) ∧
    (∀ (wfs : Except String FS) (filt : Option Nat) (od : String)
       (u s c e : List Nat → Option String) (p : Partition)
       (ps : List Partition),
       ∃ ff fe arts w,
         extractFromImage ⟨some (p :: ps), wfs, filt, od, u, s, c, e⟩ =
           .ok ff fe arts w) :=
  ⟨fun _ _ _ _ _ _ _ => rfl,
   fun _ _ _ _ _ _ _ => ⟨_, _, _, _, rfl⟩,
   fun _ _ _ _ _ _ _ _ _ => ⟨_, _, _, _, rfl⟩⟩

/-- C8: recoverable errors are isolated at the narrowest scope: a partition
whose filesystem fails to open contributes nothing while the loop continues
with the remaining partitions; a directory whose `open_dir` raises loses
only its own subtree while siblings are still walked; a match whose read
raises contributes no artifact while the extraction loop continues; and in
the partition branch the run always completes with a success result. -/
theorem error_isolation_scopes :
    (∀ (filt : Option Nat) (i : Nat) (al : Bool) (d : String)
       (ps : List Partition),
       partLoop filt i (⟨al, d, none⟩ :: ps) = partLoop filt (i + 1) ps) ∧
    (∀ (path : String) (es₁ : List Entry) (n : String) (ch : EntryList)
       (es₂ : List Entry),
       findL path (entryListOf (es₁ ++ .dir n false ch :: es₂)) =
         findL path (entryListOf es₁) ++ findL path (entryListOf es₂)) ∧
    (∀ (inp : OrchInput) (i : Nat) (p : String) (sz : Nat)
       (pd : Option String) (pn : Option Nat) (rs : List TaggedMatch),
       extractLoop inp i (⟨⟨p, sz, none⟩, pd, pn⟩ :: rs) =
         extractLoop inp (i + 1) rs) ∧
    (∀ (p : Partition) (ps : List Partition) (wfs : Except String FS)
       (filt : Option Nat) (od : String)
       (u s c e : List Nat → Option String),
       ∃ ff fe arts w,
         extractFromImage ⟨some (p :: ps), wfs, filt, od, u, s, c, e⟩ =
           .ok ff fe arts w) := by
  refine ⟨?_, ?_, fun _ _ _ _ _ _ _ => rfl,
    fun _ _ _ _ _ _ _ _ _ => ⟨_, _, _, _, rfl⟩⟩
  · intro filt i al d ps
    cases al <;> cases filt <;> simp [partLoop]
  · intro path es₁ n ch es₂
    have h0 : findE path (Entry.dir n false ch) = [] := by
      by_cases hd : isDotEntry n <;>
        by_cases hp : dirPrune path n (fullPath path n) <;>
        simp [findE, hd, hp]
    induction es₁ with
    | nil => simp [entryListOf, findL, h0]
    | cons e es ih => simp [entryListOf, findL, ih]

/-- C9: every successful result reports `files_found` equal to the number
of matches located across the searched filesystems, `files_extracted` equal
to the length of the extracted-files list, and hence
`files_extracted ≤ files_found`. -/
theorem result_count_invariants :
    ∀ (inp : OrchInput) (ff fe : Nat) (arts : List Artifact)
      (w : List (String × List Nat)),
      extractFromImage inp = .ok ff fe arts w →
      ff = (allResultsOf inp).length ∧ fe = arts.length ∧ fe ≤ ff := by
  intro inp ff fe arts w h
  rcases extract_shape inp with ⟨e, he⟩ | hok
  · rw [he] at h
    exact absurd h (by simp)
  · rw [hok] at h
    injection h with h1 h2 h3 h4
    refine ⟨h1.symm, ?_, ?_⟩
    · rw [← h2, ← h3]
    · rw [← h1, ← h2]
      exact extractLoop_arts_le inp (allResultsOf inp) 0

/-- C9 witness: the invariants evaluated on bob's run. -/
theorem result_count_invariants_witness :
    1 = (allResultsOf bobInput).length ∧
    1 = ([bobArtifact] : List Artifact).length ∧ 1 ≤ 1 :=
  result_count_invariants bobInput 1 1 [bobArtifact]
    [("out/ConsoleHost_history_bob_1.txt", bobBytes)] (by decide)

/-- C10: a match whose read succeeded with an empty byte string is treated
exactly like a failed read — the extraction-loop step is skipped (no write,
no artifact) and identical to the `none` step — and concretely a run whose
only match is a zero-byte file reports `files_found = 1`,
`files_extracted = 0`, no artifacts and no writes. -/
theorem empty_content_treated_as_failure :
    (∀ (inp : OrchInput) (i : Nat) (p : String) (sz : Nat)
       (pd : Option String) (pn : Option Nat) (rs : List TaggedMatch),
       extractLoop inp i (⟨⟨p, sz, some []⟩, pd, pn⟩ :: rs) =
         extractLoop inp (i + 1) rs) ∧
    (∀ (inp : OrchInput) (i : Nat) (p : String) (sz : Nat)
       (pd : Option String) (pn : Option Nat) (rs : List TaggedMatch),
       extractLoop inp i (⟨⟨p, sz, some []⟩, pd, pn⟩ :: rs) =
         extractLoop inp i (⟨⟨p, sz, none⟩, pd, pn⟩ :: rs)) ∧
    extractFromImage emptyFileInput = .ok 1 0 [] [] :=
  ⟨fun _ _ _ _ _ _ _ => rfl, fun _ _ _ _ _ _ _ => rfl, by decide⟩

end McpServer
